import Mathlib

/-!
A shallow embedding of the osquery SQLite utility layer
(src/osquery/sql/sqlite_util.h): the SQLiteDBManager / SQLiteDBInstance
resource model and the QueryPlanner opcode-trace type inference.

The repository ships only the header; method bodies live in a translation
unit that is not part of this source tree.  Definitions whose body is not in
the header are therefore modelled from the specification document, and each
such definition carries a doc comment starting with `Modelled from the spec:`.
The data model (fields, signatures, enum values) and the inline bodies
(`get`, `isPrimary`, `db`, `tables`, `Opcode.regString`) are taken from the
header itself.
-/

namespace osquery

/-- Semantic column types for result columns.  The header draws these from
osquery's `ColumnType`; `UNKNOWN_TYPE` is the explicit unknown sentinel. -/
inductive ColumnType
  | UNKNOWN_TYPE
  | TEXT_TYPE
  | INTEGER_TYPE
  | BIGINT_TYPE
  | DOUBLE_TYPE
  | BLOB_TYPE
  deriving DecidableEq, Repr

namespace QueryPlanner

/-- The `QueryPlanner::Opcode::Register` enumeration: `P1 = 0, P2, P3`
(sqlite_util.h lines 279-283). -/
inductive Register
  | P1
  | P2
  | P3
  deriving DecidableEq, Repr

/-- The numeric value of a `Register` enumerator, as fixed by the C++ enum
(`P1 = 0`, then implicit increments). -/
def Register.toNat : Register → Nat
  | .P1 => 0
  | .P2 => 1
  | .P3 => 2

/-- The static three-element name vector inside `Opcode::regString`:
`static std::vector<std::string> regs = {"p1", "p2", "p3"};`. -/
def regs : List String := ["p1", "p2", "p3"]

/-- `Opcode::regString(Register r)` returns `regs[r]`.  The C++ indexing is
unchecked, so the embedding is the fallible list lookup `regs.get?`; an
out-of-bounds register would surface as `none`. -/
def regString (r : Register) : Option String :=
  regs.get? r.toNat

/-- `QueryPlanner::Opcode`: a (register-slot, inferred-type) pair
(sqlite_util.h lines 284-288). -/
structure Opcode where
  reg : Register
  type : ColumnType
  deriving DecidableEq, Repr

end QueryPlanner

/-- Modelled from the spec: `kSQLOpcodes`, the static opcode-name →
(register, type) table, is declared `extern` in the header and its entries
are in the missing translation unit.  The spec describes it as pure data
mapping an engine opcode name to the register slot and semantic type it
constrains; a representative set of entries is given here. -/
def kSQLOpcodes : List (String × QueryPlanner.Opcode) :=
  [("Concat", ⟨.P3, .TEXT_TYPE⟩),
   ("Integer", ⟨.P2, .INTEGER_TYPE⟩),
   ("Int64", ⟨.P2, .BIGINT_TYPE⟩),
   ("String8", ⟨.P2, .TEXT_TYPE⟩),
   ("Real", ⟨.P2, .DOUBLE_TYPE⟩),
   ("Add", ⟨.P3, .BIGINT_TYPE⟩),
   ("Subtract", ⟨.P3, .BIGINT_TYPE⟩),
   ("Multiply", ⟨.P3, .BIGINT_TYPE⟩),
   ("Divide", ⟨.P3, .DOUBLE_TYPE⟩),
   ("Function", ⟨.P3, .TEXT_TYPE⟩)]

namespace QueryPlanner

/-- One row of the `EXPLAIN` bytecode trace (`program_` in the header): an
opcode name and up to three register operands. -/
structure OpcodeRow where
  opcode : String
  p1 : Nat
  p2 : Nat
  p3 : Nat
  deriving DecidableEq, Repr

/-- Select the operand of a trace row named by a register slot. -/
def OpcodeRow.operand (row : OpcodeRow) : Register → Nat
  | .P1 => row.p1
  | .P2 => row.p2
  | .P3 => row.p3

/-- Modelled from the spec: the effect of one trace row on the
register-index → inferred-type mapping inside `applyTypes` (missing
translation unit).  If the row's opcode name matches the static table, the
type is recorded for the register named by the matched operand slot,
overriding any earlier inference for that register. -/
def stepRegTypes (m : Nat → Option ColumnType) (row : OpcodeRow) :
    Nat → Option ColumnType :=
  match kSQLOpcodes.lookup row.opcode with
  | none => m
  | some op => fun r => if r = row.operand op.reg then some op.type else m r

/-- Modelled from the spec: the register-index → inferred-type mapping built
by scanning the whole trace program in order (`applyTypes`, missing
translation unit).  Later instructions override earlier ones. -/
def regTypes (program : List OpcodeRow) : Nat → Option ColumnType :=
  program.foldl stepRegTypes (fun _ => none)

/-- The contribution of a single trace row to register `r`: the type it
constrains `r` to, when its opcode matches the static table and the matched
operand slot names `r`. -/
def constrains (row : OpcodeRow) (r : Nat) : Option ColumnType :=
  match kSQLOpcodes.lookup row.opcode with
  | none => none
  | some op => if r = row.operand op.reg then some op.type else none

/-- Modelled from the spec: retype one column at result-register index `j`
(`applyTypes`, missing translation unit): a column whose type is still the
unknown sentinel receives the inferred type for its register when one was
found; an already-typed column is untouched. -/
def retype (m : Nat → Option ColumnType) (j : Nat) (c : String × ColumnType) :
    String × ColumnType :=
  if c.2 = .UNKNOWN_TYPE then
    match m j with
    | some t => (c.1, t)
    | none => c
  else c

/-- Modelled from the spec: assign inferred types to an ordered column list,
column `i` corresponding to result register `k + i` (`applyTypes`, missing
translation unit). -/
def assignTypes (m : Nat → Option ColumnType) (k : Nat) :
    List (String × ColumnType) → List (String × ColumnType)
  | [] => []
  | c :: rest => retype m k c :: assignTypes m (k + 1) rest

/-- Modelled from the spec: `QueryPlanner::applyTypes(columns)` (missing
translation unit).  Scans the trace program against `kSQLOpcodes` to build
the register type map, fills in every still-unknown column whose register
received an inference, and reports success exactly when no unknown column
remains; on failure the partially typed column list is still returned. -/
def applyTypes (program : List OpcodeRow) (columns : List (String × ColumnType)) :
    Bool × List (String × ColumnType) :=
  let cols := assignTypes (regTypes program) 0 columns
  (cols.all fun c => decide (c.2 ≠ .UNKNOWN_TYPE), cols)

/-- One row of the `EXPLAIN QUERY PLAN` output: its human-readable detail
text, from which a scanned table name may be extracted. -/
structure PlanRow where
  detail : String
  deriving DecidableEq, Repr

/-- Modelled from the spec: the text-parsing rule extracting the referenced
table name from a plan row's descriptive text (`QueryPlanner` constructor,
missing translation unit).  A row describing a table scan names exactly one
table; other rows contribute nothing. -/
def extractTable (row : PlanRow) : Option String :=
  match row.detail.splitOn " " with
  | w0 :: w1 :: _ => if w0 = "SCAN" then some w1 else none
  | _ => none

/-- Modelled from the spec: accumulation of `tables_` by the `QueryPlanner`
constructor (missing translation unit): for each plan row in the
engine-reported order, append the extracted table name, keeping duplicates. -/
def scanTables : List PlanRow → List String
  | [] => []
  | row :: rest =>
    match extractTable row with
    | some t => t :: scanTables rest
    | none => scanTables rest

end QueryPlanner

/-- A virtual-table content object, identified by its name; `id` stands for
the opaque per-table state the instance records but never inspects. -/
structure VirtualTableContent where
  name : String
  id : Nat
  deriving DecidableEq, Repr

/-- `SQLiteDBInstance`: a wrapper around either the shared primary database
or a private ephemeral one (sqlite_util.h lines 46-137).  Database handles
are modelled by `Nat` identities; `attached` is the set of virtual tables
attached to the wrapped handle; `affected_tables_` is the name-keyed
bookkeeping map of tables touched during the instance's lifetime. -/
structure SQLiteDBInstance where
  primary_ : Bool
  managed_ : Bool
  use_cache_ : Bool
  db_ : Nat
  attached : List String
  affected_tables_ : List (String × VirtualTableContent)
  deriving DecidableEq, Repr

namespace SQLiteDBInstance

/-- `isPrimary()` (inline in the header): whether this instance wraps the
osquery primary. -/
def isPrimary (i : SQLiteDBInstance) : Bool :=
  i.primary_

/-- `db()` (inline in the header): accessor to the wrapped handle. -/
def db (i : SQLiteDBInstance) : Nat :=
  i.db_

/-- Modelled from the spec: `addAffectedTable(table)` (missing translation
unit) is idempotent and records that the table was touched during this
instance's lifetime, keyed by table name. -/
def addAffectedTable (i : SQLiteDBInstance) (t : VirtualTableContent) :
    SQLiteDBInstance :=
  if i.affected_tables_.any fun p => p.1 = t.name then i
  else { i with affected_tables_ := i.affected_tables_ ++ [(t.name, t)] }

/-- Modelled from the spec: `tableCalled(table)` (missing translation unit)
is a membership test against the affected-table bookkeeping. -/
def tableCalled (i : SQLiteDBInstance) (t : VirtualTableContent) : Bool :=
  i.affected_tables_.any fun p => p.1 = t.name

/-- Modelled from the spec: `clearAffectedTables()` (missing translation
unit) invokes a reset hook on every recorded table and empties the
bookkeeping map.  The pure model returns the list of tables whose reset
hook fires together with the cleared instance. -/
def clearAffectedTables (i : SQLiteDBInstance) :
    List VirtualTableContent × SQLiteDBInstance :=
  (i.affected_tables_.map fun p => p.2, { i with affected_tables_ := [] })

/-- `useCache(bool)` setter (header declaration; trivial field write). -/
def useCache (i : SQLiteDBInstance) (use_cache : Bool) : SQLiteDBInstance :=
  { i with use_cache_ := use_cache }

end SQLiteDBInstance

/-- `SQLiteDBManager` state (sqlite_util.h lines 205-226).  `db_` is the list
of live primary database objects (the header holds a single nullable pointer;
the list form lets the one-live-primary invariant be stated rather than
assumed), `lockHeld` is the state of the primary-access mutex `mutex_`,
`disabled_tables_` the disabled-table set, and `nextId` the source of fresh
handle identities. -/
structure SQLiteDBManager where
  db_ : List Nat
  lockHeld : Bool
  disabled_tables_ : List String
  nextId : Nat
  deriving DecidableEq, Repr

namespace SQLiteDBManager

/-- The manager at process start: no primary yet, mutex free, no disabled
tables. -/
def initial : SQLiteDBManager :=
  { db_ := [], lockHeld := false, disabled_tables_ := [], nextId := 0 }

/-- A transient instance over a fresh private handle with every virtual
table freshly attached (spec: the contended / `getUnique` path). -/
def transientInstance (d : Nat) (registry : List String) : SQLiteDBInstance :=
  { primary_ := false, managed_ := true, use_cache_ := false, db_ := d,
    attached := registry, affected_tables_ := [] }

/-- An instance wrapping the shared primary handle, built by the manager's
opaque constructor with the primary lock held. -/
def primaryInstance (d : Nat) (registry : List String) : SQLiteDBInstance :=
  { primary_ := true, managed_ := true, use_cache_ := false, db_ := d,
    attached := registry, affected_tables_ := [] }

/-- Modelled from the spec: `SQLiteDBManager::getConnection` (missing
translation unit).  Attempts a non-blocking acquisition of the primary
mutex.  On success it returns an instance wrapping the shared primary,
lazily creating the primary (with all virtual tables attached) under the
creation mutex when none exists.  On contention it returns a brand-new
transient database with every virtual table freshly attached — contention
is never an error.  `registry` is the set of registered virtual tables. -/
def getConnection (registry : List String) (s : SQLiteDBManager) :
    SQLiteDBInstance × SQLiteDBManager :=
  if s.lockHeld then
    (transientInstance s.nextId registry, { s with nextId := s.nextId + 1 })
  else
    match s.db_ with
    | [] =>
      (primaryInstance s.nextId registry,
       { s with db_ := [s.nextId], lockHeld := true, nextId := s.nextId + 1 })
    | d :: _ =>
      (primaryInstance d registry, { s with lockHeld := true })

/-- `get()` (inline in the header): `return getConnection();`. -/
def get (registry : List String) (s : SQLiteDBManager) :
    SQLiteDBInstance × SQLiteDBManager :=
  getConnection registry s

/-- Modelled from the spec: `getUnique()` (missing translation unit) always
returns a transient instance, bypassing the primary entirely. -/
def getUnique (registry : List String) (s : SQLiteDBManager) :
    SQLiteDBInstance × SQLiteDBManager :=
  (transientInstance s.nextId registry, { s with nextId := s.nextId + 1 })

/-- Modelled from the spec: `resetPrimary()` (missing translation unit)
closes the existing primary, if any, under the creation mutex; the primary
is lazily rebuilt on the next `get()`. -/
def resetPrimary (s : SQLiteDBManager) : SQLiteDBManager :=
  { s with db_ := [] }

/-- Split a character sequence at every comma: the comma-delimited elements
of a configuration value. -/
def splitCsv (cs : List Char) : List (List Char) :=
  match cs with
  | [] => [[]]
  | c :: rest =>
    if c = ',' then [] :: splitCsv rest
    else
      match splitCsv rest with
      | [] => [c] :: []
      | w :: ws => (c :: w) :: ws

/-- The comma-separated elements of a configuration string. -/
def csvElements (csv : String) : List String :=
  (splitCsv csv.data).map fun w => String.mk w

/-- Modelled from the spec: `setDisabledTables(csv)` (missing translation
unit) parses a comma-delimited configuration value into the disabled-table
set. -/
def setDisabledTables (s : SQLiteDBManager) (csv : String) : SQLiteDBManager :=
  { s with disabled_tables_ := csvElements csv }

/-- Modelled from the spec: `isDisabled(table_name)` (missing translation
unit) is a pure lookup against the disabled-table set. -/
def isDisabled (s : SQLiteDBManager) (table_name : String) : Bool :=
  decide (table_name ∈ s.disabled_tables_)

end SQLiteDBManager

/-- An operation on the global state: a caller requests a handle via
`get()`, a live instance is destroyed (releasing the primary lock when it
was primary-bound), or the primary is reset. -/
inductive Op
  | acquire
  | release (i : Nat)
  | reset
  deriving DecidableEq, Repr

/-- The global state: the manager singleton plus every live instance. -/
structure World where
  mgr : SQLiteDBManager
  live : List SQLiteDBInstance
  deriving DecidableEq, Repr

/-- Modelled from the spec: one step of the concurrent handle life cycle.
`acquire` runs `get()` and keeps the returned instance live; `release i`
destroys the i-th live instance, releasing the manager's primary mutex
exactly when that instance was primary-bound; `reset` runs
`resetPrimary()`. -/
def step (registry : List String) (w : World) : Op → World
  | .acquire =>
    { mgr := (SQLiteDBManager.get registry w.mgr).2,
      live := (SQLiteDBManager.get registry w.mgr).1 :: w.live }
  | .release i =>
    match w.live.get? i with
    | none => w
    | some inst =>
      { mgr :=
          if inst.primary_ then { w.mgr with lockHeld := false } else w.mgr,
        live := w.live.eraseIdx i }
  | .reset => { w with mgr := SQLiteDBManager.resetPrimary w.mgr }

/-- The world at process start. -/
def World.initial : World :=
  { mgr := SQLiteDBManager.initial, live := [] }

/-- Run a sequence of operations from a world. -/
def run (registry : List String) (w : World) : List Op → World
  | [] => w
  | op :: ops => run registry (step registry w op) ops

/-- The number of live primary-bound instances. -/
def countPrimary (w : World) : Nat :=
  w.live.countP fun i => i.primary_

/-- The manager invariant: the primary mutex is held exactly when one live
instance is primary-bound, and at most one live primary database object
exists. -/
def Inv (w : World) : Prop :=
  countPrimary w = (if w.mgr.lockHeld then 1 else 0) ∧ w.mgr.db_.length ≤ 1

/-- A manager state whose primary access mutex is currently held by another
caller, with one live primary database object. -/
def contendedManager : SQLiteDBManager :=
  { db_ := [0], lockHeld := true, disabled_tables_ := [], nextId := 1 }

/-- A manager state holding one primary database object with the access
mutex free. -/
def restedManager : SQLiteDBManager :=
  { db_ := [0], lockHeld := false, disabled_tables_ := [], nextId := 1 }

/-- `scanTables` is exactly the in-order extraction of table names from the
plan rows. -/
theorem scanTables_eq_filterMap (rows : List QueryPlanner.PlanRow) :
    QueryPlanner.scanTables rows = rows.filterMap QueryPlanner.extractTable := by
  induction rows with
  | nil => rfl
  | cons row rest ih =>
    unfold QueryPlanner.scanTables
    cases h : QueryPlanner.extractTable row <;>
      simp [List.filterMap_cons, h, ih]

/-- Occurrences of a name in `scanTables` match the number of plan rows
extracting that name: duplicates are never collapsed. -/
theorem scanTables_count (rows : List QueryPlanner.PlanRow) (n : String) :
    (QueryPlanner.scanTables rows).count n =
      rows.countP fun row => decide (QueryPlanner.extractTable row = some n) := by
  induction rows with
  | nil => rfl
  | cons row rest ih =>
    unfold QueryPlanner.scanTables
    cases h : QueryPlanner.extractTable row with
    | none => simp [List.countP_cons, h, ih]
    | some t =>
      by_cases ht : t = n <;>
        simp [List.count_cons, List.countP_cons, h, ih, ht]

/-- C5: `tables()` lists the table names in the engine-reported scan order —
the list is exactly the in-order extraction from the plan rows, it is
compositional in that order, and every duplicate name, consecutive or not,
is preserved with no deduplication (occurrence counts match the plan). -/
theorem C5_tables_scan_order_no_dedup (rows rows2 : List QueryPlanner.PlanRow)
    (n : String) :
    QueryPlanner.scanTables rows = rows.filterMap QueryPlanner.extractTable ∧
    QueryPlanner.scanTables (rows ++ rows2) =
      QueryPlanner.scanTables rows ++ QueryPlanner.scanTables rows2 ∧
    (QueryPlanner.scanTables rows).count n =
      rows.countP fun row => decide (QueryPlanner.extractTable row = some n) := by
  refine ⟨scanTables_eq_filterMap rows, ?_, scanTables_count rows n⟩
  simp [scanTables_eq_filterMap, List.filterMap_append]

/-- Recording one more affected table never forgets an earlier one. -/
theorem tableCalled_addAffectedTable_mono (j : SQLiteDBInstance)
    (t u : VirtualTableContent) (h : j.tableCalled t = true) :
    (j.addAffectedTable u).tableCalled t = true := by
  unfold SQLiteDBInstance.tableCalled at h ⊢
  unfold SQLiteDBInstance.addAffectedTable
  by_cases hu : j.affected_tables_.any (fun p => decide (p.1 = u.name)) = true
  · simpa [hu] using h
  · simp [hu, List.any_append]
    left
    obtain ⟨p, hp, hpt⟩ := List.any_eq_true.mp h
    have hname : p.1 = t.name := by simpa using hpt
    refine ⟨p.2, ?_⟩
    rw [← hname]
    simpa using hp

/-- C6: `addAffectedTable` is idempotent, after it `tableCalled` reports the
table as already called, and it stays called through further recordings
until the bookkeeping is cleared. -/
theorem C6_addAffectedTable_idempotent (i : SQLiteDBInstance)
    (t u : VirtualTableContent) :
    (i.addAffectedTable t).addAffectedTable t = i.addAffectedTable t ∧
    (i.addAffectedTable t).tableCalled t = true ∧
    ((i.addAffectedTable t).addAffectedTable u).tableCalled t = true ∧
    (i.addAffectedTable t).clearAffectedTables.2.tableCalled t = false := by
  have hcalled : (i.addAffectedTable t).tableCalled t = true := by
    unfold SQLiteDBInstance.addAffectedTable SQLiteDBInstance.tableCalled
    by_cases h : i.affected_tables_.any (fun p => decide (p.1 = t.name)) = true
    · simp [h]
    · simp [h, List.any_append]
  refine ⟨?_, hcalled, tableCalled_addAffectedTable_mono _ t u hcalled, rfl⟩
  unfold SQLiteDBInstance.addAffectedTable
  by_cases h : i.affected_tables_.any (fun p => decide (p.1 = t.name)) = true
  · simp [h]
  · simp [h, List.any_append]

/-- C7: `clearAffectedTables` is idempotent: after each of two successive
calls the affected-table bookkeeping is empty, the second call changes
nothing and fires no reset hook. -/
theorem C7_clearAffectedTables_idempotent (i : SQLiteDBInstance) :
    (i.clearAffectedTables.2.clearAffectedTables).2 = i.clearAffectedTables.2 ∧
    i.clearAffectedTables.2.affected_tables_ = [] ∧
    (i.clearAffectedTables.2.clearAffectedTables).2.affected_tables_ = [] ∧
    (i.clearAffectedTables.2.clearAffectedTables).1 = [] := by
  simp [SQLiteDBInstance.clearAffectedTables]

/-- C8: after configuring the disabled set with the comma-delimited string
"x,y", `isDisabled "x"` is true and `isDisabled n` is false for every name
`n` outside the comma-separated elements of the configured string. -/
theorem C8_isDisabled_after_setDisabledTables (s : SQLiteDBManager) (n : String)
    (h : n ∉ SQLiteDBManager.csvElements "x,y") :
    (s.setDisabledTables "x,y").isDisabled "x" = true ∧
    (s.setDisabledTables "x,y").isDisabled n = false := by
  have hsplit : SQLiteDBManager.csvElements "x,y" = ["x", "y"] := by decide
  rw [hsplit] at h
  unfold SQLiteDBManager.isDisabled SQLiteDBManager.setDisabledTables
  rw [hsplit]
  simp at h
  simp [h]

/-- Witness for C8 at the initial manager and the name "z". -/
theorem C8_isDisabled_witness :
    (SQLiteDBManager.initial.setDisabledTables "x,y").isDisabled "x" = true ∧
    (SQLiteDBManager.initial.setDisabledTables "x,y").isDisabled "z" = false :=
  C8_isDisabled_after_setDisabledTables SQLiteDBManager.initial "z" (by decide)

/-- The effect of one trace row on one register, expressed through the
row's own contribution `constrains`. -/
theorem stepRegTypes_eq (m : Nat → Option ColumnType)
    (row : QueryPlanner.OpcodeRow) (r : Nat) :
    QueryPlanner.stepRegTypes m row r =
      match QueryPlanner.constrains row r with
      | some t => some t
      | none => m r := by
  unfold QueryPlanner.stepRegTypes QueryPlanner.constrains
  cases kSQLOpcodes.lookup row.opcode with
  | none => rfl
  | some op =>
    by_cases hr : r = row.operand op.reg
    · simp [hr]
    · simp [hr]

/-- A trace row that does not constrain register `r` leaves the inferred
type of `r` unchanged. -/
theorem stepRegTypes_not_constraining (m : Nat → Option ColumnType)
    (row : QueryPlanner.OpcodeRow) (r : Nat)
    (h : QueryPlanner.constrains row r = none) :
    QueryPlanner.stepRegTypes m row r = m r := by
  rw [stepRegTypes_eq, h]

/-- A trace row constraining register `r` to type `t` overrides any earlier
inference for `r`. -/
theorem stepRegTypes_constraining (m : Nat → Option ColumnType)
    (row : QueryPlanner.OpcodeRow) (r : Nat) (t : ColumnType)
    (h : QueryPlanner.constrains row r = some t) :
    QueryPlanner.stepRegTypes m row r = some t := by
  rw [stepRegTypes_eq, h]

/-- Scanning a suffix of the program none of whose rows constrain `r`
preserves the inferred type of `r`. -/
theorem foldl_stepRegTypes_unaffected (post : List QueryPlanner.OpcodeRow)
    (r : Nat) :
    ∀ m : Nat → Option ColumnType,
      (∀ q ∈ post, QueryPlanner.constrains q r = none) →
      post.foldl QueryPlanner.stepRegTypes m r = m r := by
  induction post with
  | nil => intro m _; rfl
  | cons q rest ih =>
    intro m h
    rw [List.foldl_cons]
    rw [ih (QueryPlanner.stepRegTypes m q) fun q2 hq2 => h q2 (List.mem_cons_of_mem q hq2)]
    exact stepRegTypes_not_constraining m q r (h q (List.mem_cons_self q rest))

/-- C4: during `applyTypes` the register-to-type map is built by scanning
the trace program in order against the static opcode table; when two
instructions constrain the same result register, the later instruction in
program order wins: the final inference for a register is the type written
by its last constraining instruction. -/
theorem C4_last_writer_wins (pre post : List QueryPlanner.OpcodeRow)
    (row : QueryPlanner.OpcodeRow) (r : Nat) (t : ColumnType)
    (h1 : QueryPlanner.constrains row r = some t)
    (h2 : ∀ q ∈ post, QueryPlanner.constrains q r = none) :
    QueryPlanner.regTypes (pre ++ row :: post) r = some t := by
  unfold QueryPlanner.regTypes
  rw [List.foldl_append, List.foldl_cons]
  rw [foldl_stepRegTypes_unaffected post r _ h2]
  exact stepRegTypes_constraining _ row r t h1

/-- Witness for C4: an "Integer" row and a later "String8" row both write
register 5; the final inference is the later TEXT, not INTEGER. -/
theorem C4_last_writer_witness :
    QueryPlanner.constrains ⟨"String8", 0, 5, 0⟩ 5 = some .TEXT_TYPE ∧
    QueryPlanner.constrains ⟨"Integer", 0, 5, 0⟩ 5 = some .INTEGER_TYPE ∧
    QueryPlanner.regTypes
      [(⟨"Integer", 0, 5, 0⟩ : QueryPlanner.OpcodeRow), ⟨"String8", 0, 5, 0⟩] 5 =
      some .TEXT_TYPE :=
  ⟨by decide, by decide,
   C4_last_writer_wins [⟨"Integer", 0, 5, 0⟩] [] ⟨"String8", 0, 5, 0⟩ 5
     .TEXT_TYPE (by decide) (by simp)⟩

/-- `assignTypes` rewrites columns pointwise: the column at index `i` is
retyped against register `k + i`. -/
theorem assignTypes_get (m : Nat → Option ColumnType) :
    ∀ (cols : List (String × ColumnType)) (k i : Nat),
      (QueryPlanner.assignTypes m k cols).get? i =
        (cols.get? i).map (QueryPlanner.retype m (k + i)) := by
  intro cols
  induction cols with
  | nil => intro k i; rfl
  | cons c rest ih =>
    intro k i
    cases i with
    | zero => rfl
    | succ j =>
      have h1 : (QueryPlanner.assignTypes m k (c :: rest)).get? (j + 1) =
          (QueryPlanner.assignTypes m (k + 1) rest).get? j := rfl
      have h2 : (c :: rest).get? (j + 1) = rest.get? j := rfl
      have hk : k + 1 + j = k + (j + 1) := by omega
      rw [h1, ih (k + 1) j, h2, hk]

/-- A column already carrying a concrete type is untouched by `retype`. -/
theorem retype_known (m : Nat → Option ColumnType) (j : Nat)
    (c : String × ColumnType) (h : c.2 ≠ .UNKNOWN_TYPE) :
    QueryPlanner.retype m j c = c := by
  unfold QueryPlanner.retype
  rw [if_neg h]

/-- An unknown column whose register received an inference is assigned that
type by `retype`. -/
theorem retype_found (m : Nat → Option ColumnType) (j : Nat)
    (c : String × ColumnType) (t : ColumnType)
    (h : c.2 = .UNKNOWN_TYPE) (hm : m j = some t) :
    QueryPlanner.retype m j c = (c.1, t) := by
  unfold QueryPlanner.retype
  rw [if_pos h, hm]

/-- C3: `applyTypes` reports success exactly when every previously-unknown
column received an inferred type, already-typed columns are never altered,
and every partial inference is retained in the returned column list even on
failure (no rollback). -/
theorem C3_applyTypes_success_iff (program : List QueryPlanner.OpcodeRow)
    (columns : List (String × ColumnType)) :
    ((QueryPlanner.applyTypes program columns).1 = true ↔
      ∀ i c, columns.get? i = some c → c.2 = .UNKNOWN_TYPE →
        ∃ c2, (QueryPlanner.applyTypes program columns).2.get? i = some c2 ∧
          c2.2 ≠ .UNKNOWN_TYPE) ∧
    (∀ i c, columns.get? i = some c → c.2 ≠ .UNKNOWN_TYPE →
      (QueryPlanner.applyTypes program columns).2.get? i = some c) ∧
    (∀ i c t, columns.get? i = some c → c.2 = .UNKNOWN_TYPE →
      QueryPlanner.regTypes program i = some t →
      (QueryPlanner.applyTypes program columns).2.get? i = some (c.1, t)) := by
  have hmap : ∀ i : Nat,
      (QueryPlanner.applyTypes program columns).2.get? i =
        (columns.get? i).map (QueryPlanner.retype (QueryPlanner.regTypes program) i) := by
    intro i
    have := assignTypes_get (QueryPlanner.regTypes program) columns 0 i
    simpa [QueryPlanner.applyTypes] using this
  refine ⟨⟨?_, ?_⟩, ?_, ?_⟩
  · intro hall i c hget hunk
    refine ⟨QueryPlanner.retype (QueryPlanner.regTypes program) i c, ?_, ?_⟩
    · rw [hmap i, hget]; rfl
    · have hmem : QueryPlanner.retype (QueryPlanner.regTypes program) i c ∈
          (QueryPlanner.applyTypes program columns).2 := by
        apply List.get?_mem
        rw [hmap i, hget]; rfl
      have := List.all_eq_true.mp hall _ hmem
      simpa using this
  · intro hres
    apply List.all_eq_true.mpr
    intro x hx
    obtain ⟨i, hi0⟩ := List.get?_of_mem hx
    have hi : Option.map (QueryPlanner.retype (QueryPlanner.regTypes program) i)
        (columns.get? i) = some x := by
      rw [← hmap i]; exact hi0
    cases hget : columns.get? i with
    | none => rw [hget] at hi; exact Option.noConfusion hi
    | some c =>
      rw [hget] at hi
      have hi2 : some (QueryPlanner.retype (QueryPlanner.regTypes program) i c) =
          some x := hi
      have hx2 : QueryPlanner.retype (QueryPlanner.regTypes program) i c = x := by
        injection hi2
      by_cases hunk : c.2 = ColumnType.UNKNOWN_TYPE
      · obtain ⟨c2, hc2, hc2t⟩ := hres i c hget hunk
        rw [hmap i, hget] at hc2
        have hc22 : some (QueryPlanner.retype (QueryPlanner.regTypes program) i c) =
            some c2 := hc2
        have hx3 : QueryPlanner.retype (QueryPlanner.regTypes program) i c = c2 := by
          injection hc22
        rw [← hx2, hx3]
        simpa using hc2t
      · rw [← hx2, retype_known _ _ _ hunk]
        simpa using hunk
  · intro i c hget hne
    rw [hmap i, hget]
    simp [retype_known _ _ _ hne]
  · intro i c t hget hunk hreg
    rw [hmap i, hget]
    simp [retype_found _ _ _ _ hunk hreg]

/-- Witness for C3: an unknown column at index 0 receives INTEGER inferred
from an "Integer" trace row writing register 0. -/
theorem C3_applyTypes_witness :
    (QueryPlanner.applyTypes [⟨"Integer", 0, 0, 0⟩]
      [("a", ColumnType.UNKNOWN_TYPE)]).2.get? 0 =
      some ("a", ColumnType.INTEGER_TYPE) :=
  (C3_applyTypes_success_iff [⟨"Integer", 0, 0, 0⟩]
      [("a", ColumnType.UNKNOWN_TYPE)]).2.2 0 ("a", ColumnType.UNKNOWN_TYPE)
    ColumnType.INTEGER_TYPE rfl rfl (by decide)

/-- On contention (mutex already held) `getConnection` yields a brand-new
transient instance and leaves the primary untouched. -/
theorem getConnection_contended (registry : List String) (s : SQLiteDBManager)
    (h : s.lockHeld = true) :
    SQLiteDBManager.getConnection registry s =
      (SQLiteDBManager.transientInstance s.nextId registry,
       { s with nextId := s.nextId + 1 }) := by
  unfold SQLiteDBManager.getConnection
  rw [h]
  simp

/-- With the mutex free and no primary yet, `getConnection` lazily creates
the primary and returns an instance wrapping it. -/
theorem getConnection_free_none (registry : List String) (s : SQLiteDBManager)
    (h : s.lockHeld = false) (hdb : s.db_ = []) :
    SQLiteDBManager.getConnection registry s =
      (SQLiteDBManager.primaryInstance s.nextId registry,
       { s with db_ := [s.nextId], lockHeld := true, nextId := s.nextId + 1 }) := by
  unfold SQLiteDBManager.getConnection
  rw [h, hdb]
  simp

/-- With the mutex free and a primary already built, `getConnection` wraps
the existing primary handle. -/
theorem getConnection_free_some (registry : List String) (s : SQLiteDBManager)
    (d : Nat) (rest : List Nat) (h : s.lockHeld = false) (hdb : s.db_ = d :: rest) :
    SQLiteDBManager.getConnection registry s =
      (SQLiteDBManager.primaryInstance d registry, { s with lockHeld := true }) := by
  unfold SQLiteDBManager.getConnection
  rw [h, hdb]
  simp

/-- `get()` is the default-argument call to `getConnection`. -/
theorem get_eq_getConnection (registry : List String) (s : SQLiteDBManager) :
    SQLiteDBManager.get registry s = SQLiteDBManager.getConnection registry s :=
  rfl

/-- C1: every `get()` either wraps the shared primary handle (when the
non-blocking acquisition of the primary mutex succeeds) or returns a
brand-new, fully independent transient database with every virtual table
freshly attached; contention never yields an error, only the transient
fallback. -/
theorem C1_get_primary_or_transient (registry : List String) (s : SQLiteDBManager)
    (hfresh : ∀ d ∈ s.db_, d < s.nextId) :
    (s.lockHeld = false →
      (SQLiteDBManager.get registry s).1.primary_ = true ∧
      (SQLiteDBManager.get registry s).1.attached = registry ∧
      (SQLiteDBManager.get registry s).2.db_.head? =
        some (SQLiteDBManager.get registry s).1.db_ ∧
      (SQLiteDBManager.get registry s).2.lockHeld = true) ∧
    (s.lockHeld = true →
      (SQLiteDBManager.get registry s).1.primary_ = false ∧
      (SQLiteDBManager.get registry s).1.attached = registry ∧
      (SQLiteDBManager.get registry s).1.affected_tables_ = [] ∧
      (SQLiteDBManager.get registry s).1.db_ ∉ s.db_ ∧
      (SQLiteDBManager.get registry s).2.db_ = s.db_) := by
  constructor
  · intro h
    cases hdb : s.db_ with
    | nil =>
      rw [SQLiteDBManager.get, getConnection_free_none registry s h hdb]
      simp [SQLiteDBManager.primaryInstance]
    | cons d rest =>
      rw [SQLiteDBManager.get, getConnection_free_some registry s d rest h hdb]
      simp [SQLiteDBManager.primaryInstance, hdb]
  · intro h
    rw [SQLiteDBManager.get, getConnection_contended registry s h]
    refine ⟨rfl, rfl, rfl, ?_, rfl⟩
    intro hmem
    exact absurd (hfresh _ hmem) (lt_irrefl _)

/-- Witness for C1 at a concrete contended manager state. -/
theorem C1_get_witness :
    (SQLiteDBManager.get ["t"] contendedManager).1.primary_ = false ∧
    (SQLiteDBManager.get ["t"] contendedManager).1.attached = ["t"] ∧
    (SQLiteDBManager.get ["t"] contendedManager).1.affected_tables_ = [] ∧
    (SQLiteDBManager.get ["t"] contendedManager).1.db_ ∉ contendedManager.db_ ∧
    (SQLiteDBManager.get ["t"] contendedManager).2.db_ = contendedManager.db_ :=
  (C1_get_primary_or_transient ["t"] contendedManager (by decide)).2 rfl

/-- C9: after `resetPrimary()` the primary database object is closed, and the
next uncontended `get()` returns a primary-bound instance with all virtual
tables re-attached, wrapping a database object distinct from the one that
existed before the reset. -/
theorem C9_resetPrimary_rebuild (registry : List String) (s : SQLiteDBManager)
    (d0 : Nat) (h1 : s.db_ = [d0]) (h2 : d0 < s.nextId) (h3 : s.lockHeld = false) :
    (SQLiteDBManager.get registry s).1.db_ = d0 ∧
    (SQLiteDBManager.resetPrimary s).db_ = [] ∧
    (SQLiteDBManager.get registry (SQLiteDBManager.resetPrimary s)).1.primary_ = true ∧
    (SQLiteDBManager.get registry (SQLiteDBManager.resetPrimary s)).1.attached = registry ∧
    (SQLiteDBManager.get registry (SQLiteDBManager.resetPrimary s)).1.db_ ≠ d0 ∧
    (SQLiteDBManager.get registry (SQLiteDBManager.resetPrimary s)).2.db_ =
      [(SQLiteDBManager.get registry (SQLiteDBManager.resetPrimary s)).1.db_] := by
  have hfree : (SQLiteDBManager.resetPrimary s).lockHeld = false := h3
  have hdb : (SQLiteDBManager.resetPrimary s).db_ = [] := rfl
  simp only [get_eq_getConnection]
  rw [getConnection_free_none registry (SQLiteDBManager.resetPrimary s) hfree hdb,
    getConnection_free_some registry s d0 [] h3 h1]
  refine ⟨rfl, rfl, rfl, rfl, ?_, rfl⟩
  show s.nextId ≠ d0
  omega

/-- Witness for C9 at a concrete manager state holding one primary. -/
theorem C9_resetPrimary_witness :
    (SQLiteDBManager.get ["t"] restedManager).1.db_ = 0 ∧
    (SQLiteDBManager.resetPrimary restedManager).db_ = [] ∧
    (SQLiteDBManager.get ["t"] (SQLiteDBManager.resetPrimary restedManager)).1.primary_ = true ∧
    (SQLiteDBManager.get ["t"] (SQLiteDBManager.resetPrimary restedManager)).1.attached = ["t"] ∧
    (SQLiteDBManager.get ["t"] (SQLiteDBManager.resetPrimary restedManager)).1.db_ ≠ 0 ∧
    (SQLiteDBManager.get ["t"] (SQLiteDBManager.resetPrimary restedManager)).2.db_ =
      [(SQLiteDBManager.get ["t"] (SQLiteDBManager.resetPrimary restedManager)).1.db_] :=
  C9_resetPrimary_rebuild ["t"] restedManager 0 rfl (by decide) rfl

/-- Erasing the i-th element of a list removes exactly that element's
contribution to a `countP`. -/
theorem countP_eraseIdx {α : Type} (p : α → Bool) :
    ∀ (l : List α) (i : Nat) (a : α), l.get? i = some a →
      l.countP p = (l.eraseIdx i).countP p + (if p a then 1 else 0) := by
  intro l
  induction l with
  | nil => intro i a h; exact Option.noConfusion h
  | cons b t ih =>
    intro i a h
    cases i with
    | zero =>
      have hb : b = a := by injection h
      rw [hb, show (a :: t).eraseIdx 0 = t from rfl, List.countP_cons]
    | succ j =>
      have ht : t.get? j = some a := h
      rw [show (b :: t).eraseIdx (j + 1) = b :: t.eraseIdx j from rfl,
        List.countP_cons, List.countP_cons, ih j a ht]
      omega

/-- Every operation of the handle life cycle preserves the manager
invariant. -/
theorem step_inv (registry : List String) (w : World) (op : Op) (h : Inv w) :
    Inv (step registry w op) := by
  obtain ⟨h1, h2⟩ := h
  unfold countPrimary at h1
  cases op with
  | acquire =>
    by_cases hl : w.mgr.lockHeld = true
    · have hg := getConnection_contended registry w.mgr hl
      refine ⟨?_, ?_⟩
      · unfold countPrimary step
        rw [get_eq_getConnection, hg, List.countP_cons]
        simp [SQLiteDBManager.transientInstance, h1, hl]
      · show ((step registry w .acquire).mgr).db_.length ≤ 1
        unfold step
        rw [get_eq_getConnection, hg]
        exact h2
    · have hl2 : w.mgr.lockHeld = false := by
        cases hb : w.mgr.lockHeld
        · rfl
        · exact absurd hb hl
      cases hdb : w.mgr.db_ with
      | nil =>
        have hg := getConnection_free_none registry w.mgr hl2 hdb
        refine ⟨?_, ?_⟩
        · unfold countPrimary step
          rw [get_eq_getConnection, hg, List.countP_cons]
          simp [SQLiteDBManager.primaryInstance, h1, hl2]
        · show ((step registry w .acquire).mgr).db_.length ≤ 1
          unfold step
          rw [get_eq_getConnection, hg]
          simp
      | cons d rest =>
        have hg := getConnection_free_some registry w.mgr d rest hl2 hdb
        refine ⟨?_, ?_⟩
        · unfold countPrimary step
          rw [get_eq_getConnection, hg, List.countP_cons]
          simp [SQLiteDBManager.primaryInstance, h1, hl2]
        · show ((step registry w .acquire).mgr).db_.length ≤ 1
          unfold step
          rw [get_eq_getConnection, hg]
          exact h2
  | release i =>
    have hmatch : step registry w (.release i) =
        match w.live.get? i with
        | none => w
        | some inst =>
          { mgr :=
              if inst.primary_ = true then { w.mgr with lockHeld := false }
              else w.mgr,
            live := w.live.eraseIdx i } := rfl
    cases hi : w.live.get? i with
    | none =>
      have hstep : step registry w (.release i) = w := by
        rw [hmatch, hi]
      rw [hstep]
      exact ⟨h1, h2⟩
    | some inst =>
      have hstep : step registry w (.release i) =
          { mgr :=
              if inst.primary_ = true then { w.mgr with lockHeld := false }
              else w.mgr,
            live := w.live.eraseIdx i } := by
        rw [hmatch, hi]
      rw [hstep]
      have hcount := countP_eraseIdx (fun x => x.primary_) w.live i inst hi
      by_cases hp : inst.primary_ = true
      · rw [if_pos hp]
        have hone : (if (fun x : SQLiteDBInstance => x.primary_) inst = true
            then 1 else 0) = 1 := by
          simp [hp]
        rw [hone] at hcount
        refine ⟨?_, ?_⟩
        · show List.countP (fun x => x.primary_) (w.live.eraseIdx i) = 0
          cases hb : w.mgr.lockHeld
          · rw [hb, if_neg (by decide)] at h1
            omega
          · rw [hb, if_pos rfl] at h1
            omega
        · exact h2
      · rw [if_neg hp]
        have hzero : (if (fun x : SQLiteDBInstance => x.primary_) inst = true
            then 1 else 0) = 0 := by
          simp [hp]
        rw [hzero] at hcount
        refine ⟨?_, ?_⟩
        · show List.countP (fun x => x.primary_) (w.live.eraseIdx i) =
            if w.mgr.lockHeld = true then 1 else 0
          omega
        · exact h2
  | reset =>
    refine ⟨?_, ?_⟩
    · unfold countPrimary step
      exact h1
    · show (SQLiteDBManager.resetPrimary w.mgr).db_.length ≤ 1
      simp [SQLiteDBManager.resetPrimary]

/-- The invariant holds in every state reachable from the initial world. -/
theorem run_inv (registry : List String) (ops : List Op) :
    ∀ w : World, Inv w → Inv (run registry w ops) := by
  induction ops with
  | nil => intro w h; exact h
  | cons op rest ih =>
    intro w h
    exact ih (step registry w op) (step_inv registry w op h)

/-- C2: in every state reachable from process start by any sequence of
handle requests, instance destructions and primary resets, at most one live
instance is primary-bound, at most one live primary database object exists,
and `resetPrimary` leaves no primary object behind (it is replaced on the
next `get()`, never duplicated). -/
theorem C2_primary_mutual_exclusion (registry : List String) (ops : List Op) :
    countPrimary (run registry World.initial ops) ≤ 1 ∧
    (run registry World.initial ops).mgr.db_.length ≤ 1 ∧
    (SQLiteDBManager.resetPrimary (run registry World.initial ops).mgr).db_ = [] := by
  have hinit : Inv World.initial := by
    constructor
    · rfl
    · show (0 : Nat) ≤ 1
      omega
  obtain ⟨h1, h2⟩ := run_inv registry ops World.initial hinit
  refine ⟨?_, h2, rfl⟩
  rw [h1]
  split <;> omega

/-- C10: `Opcode::regString` is total over the `Register` enumeration: each
enumerator indexes the three-element name vector in bounds, and the result
is exactly "p1", "p2", "p3" respectively. -/
theorem C10_regString_total :
    ∀ r : QueryPlanner.Register,
      r.toNat < QueryPlanner.regs.length ∧
      QueryPlanner.regString r = some (match r with
        | .P1 => "p1"
        | .P2 => "p2"
        | .P3 => "p3") := by
  intro r
  cases r <;> exact ⟨by decide, rfl⟩

end osquery
